import Mathlib

/-!
# TradeTracer Executor — verification of the tick reconciliation core

Shallow embedding of the executor repository:
* `src/executor/transactions.py` — `TransactionStore` (the Pending Fill Store),
* `src/executor/config.py` — `Config`,
* `src/executor/main.py` — `Executor.start` / `Executor.tick`,
* `src/adapters/base.py` — `BaseAdapter.execute_order` dispatch.

Conventions of the embedding:
* Python JSON numbers are modelled as `ℚ` (only copied around by the core,
  never computed with), share counts as `Int`, unix timestamps as `Nat`.
* The store's backing file is modelled by `FileData`: absent, present but not
  parsing as a JSON document (`corrupt`), or a well-formed JSON array of
  transactions (`stored`).  `json.loads` failure is the `none` branch of
  `jsonLoads`.
* Wall-clock reads (`time.time()`, `datetime.now()`) are parameters of the
  respective operations.
* The remote HTTP call and the broker adapter are the environment: the
  outcome of the single POST in a tick is an input (`RemoteOutcome`), and the
  adapter is a record of the functions the tick cycle calls.
-/

namespace TradeTracer

/-- A transaction record as built by `Executor.tick` (main.py lines 254-262)
and persisted by `TransactionStore` (transactions.py). -/
structure Tx where
  order_id : String
  symbol : String
  action : String
  volume : Int
  price : ℚ
  commission : ℚ
  time : Nat
deriving DecidableEq, Repr

/-- Contents of the store's backing file `pending_tx.json`.  `corrupt` stands
for any byte content that `json.loads` rejects (including the empty file left
behind if a write is interrupted just after `open(mode="w")` truncates);
`stored l` is a well-formed JSON array of transactions. -/
inductive FileData where
  | absent : FileData
  | corrupt : FileData
  | stored : List Tx → FileData
deriving DecidableEq, Repr

/-- Embeds `json.loads(file.read_text())` on the backing file: `none` when the read
raises `FileNotFoundError` or the content raises `JSONDecodeError`. -/
def jsonLoads : FileData → Option (List Tx)
  | .absent => none
  | .corrupt => none
  | .stored l => some l

/-- Embeds `TransactionStore._ensure_file` (transactions.py lines 63-67): create the
file with an empty array only when it does not exist. -/
def ensureFile : FileData → FileData
  | .absent => .stored []
  | fd => fd

/-- Embeds `TransactionStore.get_pending` (transactions.py lines 69-85): parse the
file, returning `[]` when the read or the parse raises. -/
def getPending (fd : FileData) : List Tx :=
  match jsonLoads fd with
  | some l => l
  | none => []

/-- Embeds `TransactionStore.add` (transactions.py lines 87-119): early-return on an
empty batch, otherwise rewrite the file with the extended list. -/
def add (fd : FileData) (transactions : List Tx) : FileData :=
  if transactions = [] then fd
  else .stored (getPending fd ++ transactions)

/-- Embeds `TransactionStore.clear` (transactions.py lines 121-134): rewrite the
file with an empty array. -/
def clear (_fd : FileData) : FileData := .stored []

/-- Embeds `TransactionStore.count` (transactions.py lines 136-143). -/
def count (fd : FileData) : Nat := (getPending fd).length

/-- The file states passed through by the non-empty branch of
`TransactionStore.add`.  The write is `Path.write_text`, which opens the file
with mode `"w"` — truncating it to zero bytes — and then writes the JSON text
in place.  So between the call and its return the on-disk file goes through:
the old content, a truncated/partially-written state that does not parse
(`corrupt` covers the empty file and every proper initial segment of the JSON
text), and finally the full new content.  An atomic replace-on-write
(temp file + rename) would instead never expose an intermediate state. -/
def addWriteStates (fd : FileData) (transactions : List Tx) : List FileData :=
  if transactions = [] then [fd]
  else [fd, .corrupt, .stored (getPending fd ++ transactions)]

/-- One event of the store's life: a completed `add` call, or a process
restart (the store is re-opened on the same data path, running
`_ensure_file`). -/
inductive StoreEvent where
  | append : List Tx → StoreEvent
  | restart : StoreEvent
deriving DecidableEq, Repr

/-- Replay a sequence of store events over the backing file. -/
def runStore (fd : FileData) : List StoreEvent → FileData
  | [] => fd
  | .append b :: rest => runStore (add fd b) rest
  | .restart :: rest => runStore (ensureFile fd) rest

/-- The non-empty appended batches of an event sequence, in call order. -/
def nonEmptyBatches (events : List StoreEvent) : List (List Tx) :=
  events.filterMap fun e =>
    match e with
    | .append b => if b = [] then none else some b
    | .restart => none

/-- A store mutation issued during a tick cycle (a call to
`TransactionStore.clear` or `TransactionStore.add`). -/
inductive StoreOp where
  | clear : StoreOp
  | append : List Tx → StoreOp
deriving DecidableEq, Repr

/-- Embeds `Config` (config.py lines 36-55).  `adapter_config` and `data_path` are
opaque to the claims under verification and are not modelled. -/
structure Config where
  api_key : String := ""
  adapter : String := "sandbox"
  api_url : String := "https://tradetracer.ai"
  poll_interval : Nat := 60
deriving DecidableEq, Repr

/-- Embeds `Config.is_valid` (config.py lines 105-112): `bool(self.api_key)`, i.e.
the key is a non-empty string. -/
def Config.is_valid (c : Config) : Bool := c.api_key ≠ ""

/-- Embeds `Config.get_tick_url` (config.py lines 114-121). -/
def Config.get_tick_url (c : Config) : String :=
  c.api_url ++ "/api/llmapi/models/tick"

/-- Embeds `Quote` (adapters/base.py lines 65-80), a `TypedDict` with every field
optional.  A key that is absent and a key present with value `None` are
identified: the tick cycle reads fields only through `.get`, which cannot
tell them apart.  The one place the difference could matter — the truthiness
test `if quote:` in main.py line 156 — is modelled by `Quote.isEmpty`: a quote
with no field set stands for the falsy empty dict `{}`. -/
structure Quote where
  «open» : Option ℚ := none
  high : Option ℚ := none
  low : Option ℚ := none
  close : Option ℚ := none
  volume : Option Int := none
  bid : Option ℚ := none
  ask : Option ℚ := none
deriving DecidableEq, Repr

/-- The empty dict `{}` is falsy in Python, so `if quote:` skips it. -/
def Quote.isEmpty (q : Quote) : Bool :=
  q.«open» = none && q.high = none && q.low = none && q.close = none
    && q.volume = none && q.bid = none && q.ask = none

/-- The wire shape the tick cycle builds for one symbol
(main.py lines 157-168). -/
structure WireQuote where
  o : Option ℚ
  h : Option ℚ
  l : Option ℚ
  c : Option ℚ
  v : Option Int
  bid : Option ℚ
  ask : Option ℚ
  time : Nat
deriving DecidableEq, Repr

/-- main.py lines 157-168: map a truthy `Quote` into the wire shape, with the
capture timestamp `int(time.time())`. -/
def wireOf (q : Quote) (now : Nat) : WireQuote :=
  { o := q.«open», h := q.high, l := q.low, c := q.close, v := q.volume,
    bid := q.bid, ask := q.ask, time := now }

/-- Embeds `Order` (adapters/base.py lines 99-111).  `action` is kept as a raw
string: the dispatcher in `BaseAdapter.execute_order` branches on the string,
not on an enumeration. -/
structure Order where
  order_id : String
  action : String
  symbol : String
  volume : Int
  price : ℚ
deriving DecidableEq, Repr

/-- Embeds `FillResult` (adapters/base.py lines 83-96): the tick cycle branches on
`result["success"]` and reads `fill_price` / `fill_shares` / `commission`
on the true branch, `error` on the false branch. -/
inductive FillResult where
  | filled : (fill_price : ℚ) → (fill_shares : Int) → (commission : ℚ) → FillResult
  | failed : (error : String) → FillResult
deriving DecidableEq, Repr

/-- The broker adapter capability set the tick cycle calls
(adapters/base.py `BaseAdapter`), as pure functions of the environment. -/
structure Adapter where
  fetch_quote : String → Option ℚ → Option Quote
  execute_buy : String → Int → ℚ → FillResult
  execute_sell : String → Int → ℚ → FillResult

/-- Embeds `BaseAdapter.execute_order` (adapters/base.py lines 330-375): route by
`action` — `"buy"` to `execute_buy`, anything else to `execute_sell`. -/
def Adapter.execute_order (a : Adapter) (order : Order) : FillResult :=
  if order.action = "buy" then
    a.execute_buy order.symbol order.volume order.price
  else
    a.execute_sell order.symbol order.volume order.price

/-- Executor session state (main.py `Executor.__init__`, lines 65-89).
`adapter` (the handle itself) and `config_path` carry no claim-relevant
state and are not modelled; dictionaries are association lists in Python
insertion order. -/
structure ExecState where
  store : FileData
  running : Bool
  tick_count : Nat
  last_tick_time : Option Nat
  error_count : Nat
  last_error : Option String
  symbols : List String
  eod_prices : List (String × ℚ)
  strategy_logs : List (String × List String)
deriving DecidableEq, Repr

/-- Embeds `Executor.__init__` (main.py lines 65-89): fresh counters, no tracked
symbols, and the store initialized over the data directory's current file
(running `_ensure_file`). -/
def initState (fd : FileData) : ExecState :=
  { store := ensureFile fd, running := false, tick_count := 0,
    last_tick_time := none, error_count := 0, last_error := none,
    symbols := [], eod_prices := [], strategy_logs := [] }

/-- Behaviour of `get_adapter(...)` plus `adapter.connect()` inside
`Executor.start`'s `try` block: the construction or the connect call raises,
or connect returns a boolean. -/
inductive ConnectBehavior where
  | raises : String → ConnectBehavior
  | connects : Bool → ConnectBehavior
deriving DecidableEq, Repr

/-- Embeds `Executor.start` (main.py lines 91-119): fail on invalid config, on an
exception from adapter construction/connect, or on `connect()` returning
`False`; only on connect success set `running := true`.  Returns the boolean
result together with the new state. -/
def start (cfg : Config) (cb : ConnectBehavior) (s : ExecState) :
    Bool × ExecState :=
  if cfg.is_valid = false then (false, s)
  else
    match cb with
    | .raises _ => (false, s)
    | .connects false => (false, s)
    | .connects true => (true, { s with running := true })

/-- Embeds `Executor.stop` (main.py lines 121-126): unconditionally leave the
running state (the `disconnect` call on the adapter is environment-side). -/
def stop (s : ExecState) : ExecState := { s with running := false }

/-- The parsed JSON body of a surfaced tick response, as the success path
reads it: `data.get("orders", [])`, `data.get("prices", {})`,
`data.get("logs", {})` — a missing key is the empty default, so the parsed
form is total.  Claims do not concern an ok response whose body is not
JSON. -/
structure TickResponse where
  orders : List Order := []
  prices : List (String × ℚ) := []
  logs : List (String × List String) := []
deriving DecidableEq, Repr

/-- Outcome of the single outbound POST of a tick (main.py lines 180-199):
the future times out, the call raises (`type(e).__name__` and `str(e)`), or
a response is surfaced.  A surfaced response carries its HTTP status code
and two views of its one body: `detail`, the string the error-body
extraction of lines 203-211 would produce (read only by the failure branch),
and `resp`, the parsed tick payload of lines 222-233 (read only by the
success branch).  Which branch runs is decided inside `tick` by
`response.ok`, exactly as at main.py line 201 — it is not fixed here. -/
inductive RemoteOutcome where
  | timeout : RemoteOutcome
  | exn : (ename : String) → (emsg : String) → RemoteOutcome
  | response : (status : Nat) → (detail : String) → (resp : TickResponse) →
      RemoteOutcome
deriving DecidableEq, Repr

/-- Embeds `requests.Response.ok`: true iff `raise_for_status()` would not
raise, and `raise_for_status` raises exactly for 400 ≤ status < 600.  Note
this accepts every 2xx but also any surfaced, non-redirected 3xx (300, 304,
a 3xx without a Location header, ...). -/
def responseOk (status : Nat) : Bool :=
  if 400 ≤ status ∧ status < 600 then false else true

/-- Whether a confirmed 2xx success was returned — the class of statuses the
spec's wording singles out, strictly narrower than `responseOk`. -/
def is2xx (status : Nat) : Bool :=
  if 200 ≤ status ∧ status < 300 then true else false

/-- Whether the cycle takes the success path of main.py line 201
(`if not response.ok:` falls through): a response was surfaced and
`requests` deems it ok. -/
def RemoteOutcome.okBranch : RemoteOutcome → Bool
  | .response status _ _ => responseOk status
  | _ => false

/-- The error message the three failure branches of `Executor.tick` record
(main.py lines 186, 193, 212; the `response` case is read only when the
response is not ok). -/
def failureMsg (cfg : Config) : RemoteOutcome → String
  | .timeout => "Timeout: " ++ cfg.get_tick_url ++ " did not respond in 5s"
  | .exn ename emsg => ename ++ ": " ++ emsg
  | .response status detail _ =>
      if detail = "" then toString status else toString status ++ ": " ++ detail

/-- Python `dict.get(k)`: the value bound to the first occurrence of the
key, if any. -/
def lookupAssoc {α : Type} (m : List (String × α)) (k : String) : Option α :=
  match m with
  | [] => none
  | p :: rest => if p.1 = k then some p.2 else lookupAssoc rest k

/-- Python dict assignment `m[k] = v`: replace the existing binding in
place, append a new binding at the end otherwise. -/
def setAssoc {α : Type} (m : List (String × α)) (k : String) (v : α) :
    List (String × α) :=
  match m with
  | [] => [(k, v)]
  | p :: rest => if p.1 = k then (k, v) :: rest else p :: setAssoc rest k v

/-- One iteration of the quote loop (main.py lines 153-169): call
`fetch_quote(symbol, self.eod_prices.get(symbol))` and keep the entry only
when the quote is truthy (`if quote:` — both `None` and the falsy empty dict
are skipped), mapped into the wire shape. -/
def quoteEntry (a : Adapter) (eod : List (String × ℚ)) (now : Nat)
    (sym : String) : Option (String × WireQuote) :=
  match a.fetch_quote sym (lookupAssoc eod sym) with
  | some q => if q.isEmpty then none else some (sym, wireOf q now)
  | none => none

/-- main.py lines 152-169: build the outbound price map by iterating the
tracked symbols. -/
def buildPrices (a : Adapter) (symbols : List String)
    (eod : List (String × ℚ)) (now : Nat) : List (String × WireQuote) :=
  symbols.filterMap (quoteEntry a eod now)

/-- Embeds `self.strategy_logs.get(symbol, [])` as read by the log loop (a missing
key is initialized to `[]` before appending). -/
def bufferOf (m : List (String × List String)) (k : String) : List String :=
  (lookupAssoc m k).getD []

/-- main.py lines 239-241: `logs[-200:]` when the buffer exceeds 200. -/
def truncLast200 (l : List String) : List String :=
  if l.length > 200 then l.drop (l.length - 200) else l

/-- main.py lines 230-241: per symbol of the response's `logs`, stamp each
line with the tick's timestamp, append to that symbol's buffer, then keep the
last 200. -/
def processLogs (ts : String) (incoming : List (String × List String))
    (logs : List (String × List String)) : List (String × List String) :=
  incoming.foldl
    (fun acc p =>
      setAssoc acc p.1
        (truncLast200 (bufferOf acc p.1 ++ p.2.map (fun line => ts ++ " " ++ line))))
    logs

/-- One iteration of the order loop (main.py lines 245-268): execute the
order through the adapter; a successful fill becomes a transaction carrying
the broker's `fill_shares` / `fill_price` / `commission` (not the order's
reference price); a failed fill is logged and produces nothing. -/
def txOfOrder (a : Adapter) (now : Nat) (o : Order) : Option Tx :=
  match a.execute_order o with
  | .filled fp fs c =>
      some { order_id := o.order_id, symbol := o.symbol, action := o.action,
             volume := fs, price := fp, commission := c, time := now }
  | .failed _ => none

/-- main.py lines 244-268: the `new_transactions` collected by the order
loop, in batch order. -/
def newTransactions (a : Adapter) (orders : List Order) (now : Nat) :
    List Tx :=
  orders.filterMap (txOfOrder a now)

/-- The dict `Executor.tick` returns: the failure shape
`{"success": False, "error": ...}` or the success shape with the tick number
and order counts (`duration_ms`, pure wall clock, is not modelled). -/
inductive TickResult where
  | failure : (error : String) → TickResult
  | ok : (tick orders_received orders_filled : Nat) → TickResult
deriving DecidableEq, Repr

/-- Everything one call of `Executor.tick` produces: the new session state,
the returned dict, the payload of the single outbound POST, the store
mutations issued (in order), and the orders dispatched to the adapter. -/
structure TickOutput where
  state : ExecState
  result : TickResult
  sentPrices : List (String × WireQuote)
  sentTransactions : List Tx
  storeOps : List StoreOp
  executed : List Order

/-- Embeds `Executor.tick` (main.py lines 128-281).  `now` is `int(time.time())`
for this cycle and `ts` the `datetime.now().strftime(...)` stamp; the
outcome of the POST is the environment's input.  The timeout and exception
branches, and the `if not response.ok:` branch (main.py line 201 — status in
400-599), return before any store mutation; when `response.ok` holds —
any other status, 2xx or a surfaced 3xx alike — the cycle clears the store,
updates symbols / EOD prices / logs, executes the orders and appends the new
transactions. -/
def tick (cfg : Config) (a : Adapter) (outcome : RemoteOutcome) (now : Nat)
    (ts : String) (s : ExecState) : TickOutput :=
  let s1 := { s with tick_count := s.tick_count + 1, last_tick_time := some now }
  let pending := getPending s.store
  let prices := buildPrices a s.symbols s.eod_prices now
  match outcome with
  | .response status detail resp =>
      if responseOk status = true then
        let store1 := clear s.store
        let newTxs := newTransactions a resp.orders now
        let store2 := add store1 newTxs
        { state := { s1 with store := store2,
                             eod_prices := resp.prices,
                             symbols := resp.prices.map Prod.fst,
                             strategy_logs := processLogs ts resp.logs s.strategy_logs },
          result := .ok s1.tick_count resp.orders.length newTxs.length,
          sentPrices := prices, sentTransactions := pending,
          storeOps := [.clear, .append newTxs],
          executed := resp.orders }
      else
        let msg := failureMsg cfg (.response status detail resp)
        { state := { s1 with error_count := s1.error_count + 1,
                             last_error := some msg },
          result := .failure msg,
          sentPrices := prices, sentTransactions := pending,
          storeOps := [], executed := [] }
  | o =>
      let msg := failureMsg cfg o
      { state := { s1 with error_count := s1.error_count + 1,
                           last_error := some msg },
        result := .failure msg,
        sentPrices := prices, sentTransactions := pending,
        storeOps := [], executed := [] }

/-! ## Tick branch lemmas -/

/-- On an ok response (status outside 400-599) the cycle runs the full
success path: clear, parse, execute, append. -/
theorem tick_ok (cfg : Config) (a : Adapter) (status : Nat) (detail : String)
    (resp : TickResponse) (now : Nat) (ts : String) (s : ExecState)
    (hok : responseOk status = true) :
    tick cfg a (.response status detail resp) now ts s =
      { state := { s with tick_count := s.tick_count + 1,
                          last_tick_time := some now,
                          store := add (.stored [])
                            (newTransactions a resp.orders now),
                          eod_prices := resp.prices,
                          symbols := resp.prices.map Prod.fst,
                          strategy_logs := processLogs ts resp.logs s.strategy_logs },
        result := .ok (s.tick_count + 1) resp.orders.length
            (newTransactions a resp.orders now).length,
        sentPrices := buildPrices a s.symbols s.eod_prices now,
        sentTransactions := getPending s.store,
        storeOps := [.clear, .append (newTransactions a resp.orders now)],
        executed := resp.orders } := by
  simp only [tick]
  rw [if_pos hok]
  rfl

/-- On a timeout, an exception, or a not-ok response (status 400-599) the
cycle aborts before any store mutation, recording the failure. -/
theorem tick_notOk (cfg : Config) (a : Adapter) (outcome : RemoteOutcome)
    (now : Nat) (ts : String) (s : ExecState)
    (h : outcome.okBranch = false) :
    tick cfg a outcome now ts s =
      { state := { s with tick_count := s.tick_count + 1,
                          last_tick_time := some now,
                          error_count := s.error_count + 1,
                          last_error := some (failureMsg cfg outcome) },
        result := .failure (failureMsg cfg outcome),
        sentPrices := buildPrices a s.symbols s.eod_prices now,
        sentTransactions := getPending s.store,
        storeOps := [], executed := [] } := by
  cases outcome with
  | timeout => rfl
  | exn en em => rfl
  | response st d resp =>
    have hok : responseOk st = false := by
      simpa [RemoteOutcome.okBranch] using h
    simp only [tick]
    rw [if_neg (by simp [hok])]

/-! ## Basic store lemmas -/

theorem getPending_stored (l : List Tx) : getPending (.stored l) = l := rfl

theorem add_empty (fd : FileData) : add fd [] = fd := by
  simp [add]

theorem add_stored (l b : List Tx) (hb : b ≠ []) :
    add (.stored l) b = .stored (l ++ b) := by
  simp [add, hb, getPending_stored]

theorem getPending_add_cleared (l : List Tx) :
    getPending (add (.stored []) l) = l := by
  by_cases h : l = []
  · subst h; rfl
  · simp [add, h, getPending, jsonLoads]

theorem ensureFile_stored (l : List Tx) : ensureFile (.stored l) = .stored l := rfl

/-- Replaying events over a well-formed file only ever appends the non-empty
batches, in order; restarts change nothing. -/
theorem runStore_stored (events : List StoreEvent) (l : List Tx) :
    runStore (.stored l) events = .stored (l ++ (nonEmptyBatches events).flatten) := by
  induction events generalizing l with
  | nil => simp [runStore, nonEmptyBatches]
  | cons e rest ih =>
    cases e with
    | append b =>
      by_cases hb : b = []
      · subst hb
        simp [runStore, add_empty, ih, nonEmptyBatches, List.filterMap_cons]
      · rw [runStore, add_stored l b hb, ih]
        simp [nonEmptyBatches, List.filterMap_cons, hb]
    | restart =>
      rw [runStore, ensureFile_stored, ih]
      simp [nonEmptyBatches, List.filterMap_cons]

/-! ## Claim theorems: the Pending Fill Store -/

/-- A sample transaction used to instantiate store claims on concrete
inputs. -/
def sampleTx : Tx :=
  { order_id := "o1", symbol := "AAPL", action := "buy", volume := 10,
    price := 100, commission := 0, time := 1707500000 }

/-- C2, counterexample.  The claim asserts the rewrite in
`TransactionStore.add` is an atomic replace-on-write, so that every state the
backing file passes through mid-write is readable (and is either the old or
the new content).  The source writes with `Path.write_text`, which truncates
the file in place before writing: starting from an empty stored list and
appending `[sampleTx]`, the write trace passes through the `corrupt`
(truncated) state, which is neither the old nor the new content and which
`json.loads` rejects. -/
theorem C2_counterexample :
    (¬ ∀ st ∈ addWriteStates (.stored []) [sampleTx],
        st = .stored [] ∨ st = add (.stored []) [sampleTx])
    ∧ FileData.corrupt ∈ addWriteStates (.stored []) [sampleTx]
    ∧ jsonLoads .corrupt = none := by
  refine ⟨fun h => ?_, by decide, rfl⟩
  have := h .corrupt (by decide)
  simp [add, getPending, jsonLoads] at this

/-- C2, amended: a completed `add` on a non-empty batch is durable — the
file then holds exactly the previous list extended with the batch, and that
is the last state of the write — but the rewrite is an in-place truncating
write, not an atomic replace: the write trace contains a truncated/unreadable
state, which a subsequent read would treat as an empty list. -/
theorem C2_add_durable_but_not_atomic (fd : FileData) (txs : List Tx)
    (h : txs ≠ []) :
    add fd txs = .stored (getPending fd ++ txs)
    ∧ (addWriteStates fd txs).getLast? = some (add fd txs)
    ∧ ∃ st ∈ addWriteStates fd txs, jsonLoads st = none ∧ getPending st = [] := by
  refine ⟨by simp [add, h], ?_, ?_⟩
  · simp [addWriteStates, add, h]
  · exact ⟨.corrupt, by simp [addWriteStates, h], rfl, rfl⟩

/-- C2, witness for the amended theorem at a concrete input. -/
theorem C2_add_durable_but_not_atomic_witness :
    add (.stored []) [sampleTx] = .stored [sampleTx]
    ∧ ∃ st ∈ addWriteStates (.stored []) [sampleTx],
        jsonLoads st = none ∧ getPending st = [] := by
  have h := C2_add_durable_but_not_atomic (.stored []) [sampleTx] (by decide)
  exact ⟨h.1, h.2.2⟩

/-- C3: for any sequence of completed `append` calls interleaved with
process restarts, starting from a store freshly initialized over an empty
data directory, the final `list()` (`get_pending`) equals the concatenation
of the non-empty appended batches in call order; and `append` of an empty
batch is a no-op leaving the file unchanged. -/
theorem C3_store_durability :
    (∀ fd : FileData, add fd [] = fd)
    ∧ ∀ events : List StoreEvent,
        getPending (runStore (ensureFile .absent) events)
          = (nonEmptyBatches events).flatten := by
  refine ⟨add_empty, fun events => ?_⟩
  have h : ensureFile .absent = .stored [] := rfl
  rw [h, runStore_stored, getPending_stored, List.nil_append]

/-- C7: a missing or unparsable backing file is read as the empty list —
`get_pending` returns `[]` and `count` returns `0` — rather than raising
(the embedding of the `try/except` is total: the exceptional branches are
exactly those where `jsonLoads` is `none`). -/
theorem C7_missing_or_corrupt_reads_empty :
    jsonLoads .absent = none
    ∧ jsonLoads .corrupt = none
    ∧ ∀ fd : FileData, jsonLoads fd = none → getPending fd = [] ∧ count fd = 0 := by
  refine ⟨rfl, rfl, fun fd h => ?_⟩
  have hg : getPending fd = [] := by simp [getPending, h]
  exact ⟨hg, by simp [count, hg]⟩

/-- C7, witness: the two concrete exceptional file states. -/
theorem C7_missing_or_corrupt_reads_empty_witness :
    getPending .absent = [] ∧ count .absent = 0
    ∧ getPending .corrupt = [] ∧ count .corrupt = 0 := by
  have h := C7_missing_or_corrupt_reads_empty
  have ha := h.2.2 .absent h.1
  have hc := h.2.2 .corrupt h.2.1
  exact ⟨ha.1, ha.2, hc.1, hc.2⟩

/-! ## Claim theorems: adapter dispatch and lifecycle -/

/-- A concrete adapter used to instantiate claims: distinguishable fixed
fills on the two sides, no quotes. -/
def probeAdapter : Adapter :=
  { fetch_quote := fun _ _ => none,
    execute_buy := fun _ sh _ => .filled 1 sh 0,
    execute_sell := fun _ sh _ => .filled 2 sh 0 }

/-- C10: the default `execute_order` dispatcher routes an order whose
`action` is exactly `"buy"` to `execute_buy`, and any other action value —
not only `"sell"` — to `execute_sell`; being a total function of the order,
it rejects no action value. -/
theorem C10_execute_order_dispatch (a : Adapter) (o : Order) :
    (o.action = "buy" →
      a.execute_order o = a.execute_buy o.symbol o.volume o.price)
    ∧ (o.action ≠ "buy" →
      a.execute_order o = a.execute_sell o.symbol o.volume o.price) := by
  constructor <;> intro h <;> simp [Adapter.execute_order, h]

/-- C10, witness: a `"buy"` order goes to the buy side, and an order with the
action `"cancel"` — neither `"buy"` nor `"sell"` — goes to the sell side. -/
theorem C10_execute_order_dispatch_witness :
    probeAdapter.execute_order
        { order_id := "i", action := "buy", symbol := "X", volume := 5, price := 3 }
      = probeAdapter.execute_buy "X" 5 3
    ∧ probeAdapter.execute_order
        { order_id := "i", action := "cancel", symbol := "X", volume := 5, price := 3 }
      = probeAdapter.execute_sell "X" 5 3 :=
  ⟨(C10_execute_order_dispatch probeAdapter _).1 rfl,
   (C10_execute_order_dispatch probeAdapter _).2 (by decide)⟩

/-- C6: starting from the Stopped state, `start` returns `True` — and the
executor becomes Running — exactly when the authentication credential is
present (`is_valid`) and adapter construction/`connect()` neither raises nor
returns `False`; in every other case it returns `False` and `running` stays
`False`. -/
theorem C6_start_guard (cfg : Config) (cb : ConnectBehavior) (s : ExecState)
    (h : s.running = false) :
    ((start cfg cb s).1 = true ↔ cfg.is_valid = true ∧ cb = .connects true)
    ∧ ((start cfg cb s).2.running = true ↔
        cfg.is_valid = true ∧ cb = .connects true) := by
  by_cases hv : cfg.is_valid
  · cases cb with
    | raises m => simp [start, hv, h]
    | connects b => cases b <;> simp [start, hv, h]
  · rw [Bool.not_eq_true] at hv
    simp [start, hv, h]

/-- C6, witness: a missing api_key keeps the executor stopped even when the
adapter would connect; with the credential present and `connect()` true, the
executor starts. -/
theorem C6_start_guard_witness :
    (start { api_key := "k" } (.connects true) (initState .absent)).1 = true
    ∧ (start {} (.connects true) (initState .absent)).1 ≠ true
    ∧ (start {} (.connects true) (initState .absent)).2.running ≠ true
    ∧ (start { api_key := "k" } (.raises "boom") (initState .absent)).1 ≠ true
    ∧ (start { api_key := "k" } (.connects false) (initState .absent)).1 ≠ true := by
  have hk := C6_start_guard { api_key := "k" } (.connects true) (initState .absent) rfl
  have h0 := C6_start_guard {} (.connects true) (initState .absent) rfl
  have hr := C6_start_guard { api_key := "k" } (.raises "boom") (initState .absent) rfl
  have hf := C6_start_guard { api_key := "k" } (.connects false) (initState .absent) rfl
  refine ⟨hk.1.mpr ⟨by decide, rfl⟩, fun hc => ?_, fun hc => ?_, fun hc => ?_, fun hc => ?_⟩
  · exact absurd (h0.1.mp hc).1 (by decide)
  · exact absurd (h0.2.mp hc).1 (by decide)
  · exact absurd (hr.1.mp hc).2 (by decide)
  · exact absurd (hf.1.mp hc).2 (by decide)

/-! ## Claim theorems: the tick cycle -/

/-- C1, counterexample to the claim as stated.  The claim says the store is
cleared if and only if the remote call returns a confirmed 2xx success, and
that any non-2xx response yields a failure result with `list()` unchanged.
The code's branch at main.py line 201 is `if not response.ok:`, and
`requests` treats any status outside 400-599 as ok — so a surfaced 300
(Multiple Choices, returned as-is since there is nothing to redirect to) is
non-2xx and yet takes the success path: with one transaction pending, the
cycle clears the store (losing the pending fill from `list()`) and returns a
success result. -/
theorem C1_counterexample :
    is2xx 300 = false
    ∧ StoreOp.clear ∈ (tick {} probeAdapter (.response 300 "" {}) 0 "t"
        (initState (.stored [sampleTx]))).storeOps
    ∧ getPending (tick {} probeAdapter (.response 300 "" {}) 0 "t"
        (initState (.stored [sampleTx]))).state.store
      ≠ getPending (initState (.stored [sampleTx])).store
    ∧ (tick {} probeAdapter (.response 300 "" {}) 0 "t"
        (initState (.stored [sampleTx]))).result = .ok 1 0 0 := by
  decide

/-- C1, amended: within a tick cycle the store's `clear` is issued if and
only if the remote call surfaces a response `requests` deems ok — any status
outside 400-599: every 2xx, but also a surfaced non-redirected 3xx.  On
timeout, transport exception, or a response with status 400-599 the cycle
returns a failure result, issues no store operation at all (so nothing is
cleared before the ok response is in hand), and the store's `list()` after
the cycle equals its `list()` before.  On the ok branch the operations are
exactly `clear` followed by the append of the cycle's newly filled
transactions. -/
theorem C1_clear_iff_ok_response (cfg : Config) (a : Adapter)
    (outcome : RemoteOutcome) (now : Nat) (ts : String) (s : ExecState) :
    (StoreOp.clear ∈ (tick cfg a outcome now ts s).storeOps
      ↔ outcome.okBranch = true)
    ∧ (outcome.okBranch = false →
        (tick cfg a outcome now ts s).state.store = s.store
        ∧ getPending (tick cfg a outcome now ts s).state.store
            = getPending s.store
        ∧ (tick cfg a outcome now ts s).storeOps = []
        ∧ (tick cfg a outcome now ts s).result
            = .failure (failureMsg cfg outcome))
    ∧ (∀ status detail resp, outcome = .response status detail resp →
        responseOk status = true →
        (tick cfg a outcome now ts s).storeOps
          = [.clear, .append (newTransactions a resp.orders now)]) := by
  by_cases h : outcome.okBranch = true
  · cases outcome with
    | timeout => simp [RemoteOutcome.okBranch] at h
    | exn en em => simp [RemoteOutcome.okBranch] at h
    | response st d resp =>
      have hok : responseOk st = true := by
        simpa [RemoteOutcome.okBranch] using h
      rw [tick_ok cfg a st d resp now ts s hok]
      refine ⟨by simp [h], by simp [h], ?_⟩
      rintro status detail resp' heq _
      cases heq
      rfl
  · rw [Bool.not_eq_true] at h
    rw [tick_notOk cfg a outcome now ts s h]
    refine ⟨by simp [h], fun _ => ⟨rfl, rfl, rfl, rfl⟩, ?_⟩
    rintro status detail resp' rfl hok
    simp [RemoteOutcome.okBranch, hok] at h

/-- C1, witness for the amended theorem: a 404 cycle leaves a pre-loaded
store intact and issues no store operation; a 200 cycle issues
clear-then-append. -/
theorem C1_clear_iff_ok_response_witness :
    getPending (tick {} probeAdapter (.response 404 "Not Found" {}) 0 "t"
        (initState (.stored [sampleTx]))).state.store = [sampleTx]
    ∧ (tick {} probeAdapter (.response 404 "Not Found" {}) 0 "t"
        (initState (.stored [sampleTx]))).storeOps = []
    ∧ (tick {} probeAdapter (.response 200 "" {}) 0 "t" (initState .absent)).storeOps
      = [.clear, .append (newTransactions probeAdapter [] 0)] := by
  have h1 := C1_clear_iff_ok_response {} probeAdapter
    (.response 404 "Not Found" {}) 0 "t" (initState (.stored [sampleTx]))
  have h2 := C1_clear_iff_ok_response {} probeAdapter (.response 200 "" {})
    0 "t" (initState .absent)
  have hfail := h1.2.1 (by decide)
  exact ⟨by simpa using hfail.2.1, hfail.2.2.1, h2.2.2 200 "" {} rfl (by decide)⟩

/-- A response body carrying one order, as a surfaced status-300 response
could deliver it; used against C5 as stated. -/
def resp300 : TickResponse :=
  { orders := [{ order_id := "c", action := "buy", symbol := "AAPL",
                 volume := 1, price := 5 }],
    prices := [("AAPL", 5)], logs := [] }

/-- C5, counterexample to the claim as stated.  The claim says any non-2xx
response aborts the cycle with session state untouched, no orders executed
and the error counter incremented.  But main.py line 201 aborts only when
`response.ok` is false (status 400-599): a surfaced 300 response — non-2xx —
takes the success path, so the cycle executes the returned order, replaces
the tracked symbols and EOD prices, leaves the error counter untouched, and
reports success. -/
theorem C5_counterexample :
    is2xx 300 = false
    ∧ (tick {} probeAdapter (.response 300 "" resp300) 0 "t"
        (initState .absent)).executed = resp300.orders
    ∧ (tick {} probeAdapter (.response 300 "" resp300) 0 "t"
        (initState .absent)).state.symbols = ["AAPL"]
    ∧ (tick {} probeAdapter (.response 300 "" resp300) 0 "t"
        (initState .absent)).state.symbols ≠ (initState .absent).symbols
    ∧ (tick {} probeAdapter (.response 300 "" resp300) 0 "t"
        (initState .absent)).state.error_count = (initState .absent).error_count
    ∧ (tick {} probeAdapter (.response 300 "" resp300) 0 "t"
        (initState .absent)).result = .ok 1 1 1 := by
  decide

/-- C5, amended: when the remote call fails in the sense of the code — a
timeout, a transport exception, or a response whose status `requests` treats
as an error (400-599) — the cycle aborts with the tracked symbol list, the
EOD price map, the per-symbol strategy log buffers and the store all
unchanged, no order dispatched to the adapter, the error counter incremented
by exactly one, and the failure's message recorded as the last error and
returned.  (A surfaced non-2xx status outside 400-599, such as 300 or 304,
instead takes the success path.) -/
theorem C5_notok_failure_frame (cfg : Config) (a : Adapter)
    (outcome : RemoteOutcome) (now : Nat) (ts : String) (s : ExecState)
    (h : outcome.okBranch = false) :
    (tick cfg a outcome now ts s).state.symbols = s.symbols
    ∧ (tick cfg a outcome now ts s).state.eod_prices = s.eod_prices
    ∧ (tick cfg a outcome now ts s).state.strategy_logs = s.strategy_logs
    ∧ (tick cfg a outcome now ts s).state.store = s.store
    ∧ (tick cfg a outcome now ts s).state.error_count = s.error_count + 1
    ∧ (tick cfg a outcome now ts s).state.last_error
        = some (failureMsg cfg outcome)
    ∧ (tick cfg a outcome now ts s).result = .failure (failureMsg cfg outcome)
    ∧ (tick cfg a outcome now ts s).executed = [] := by
  rw [tick_notOk cfg a outcome now ts s h]
  exact ⟨rfl, rfl, rfl, rfl, rfl, rfl, rfl, rfl⟩

/-- C5, witness: a transport exception on a fresh executor records one error
with its message and executes nothing; so does a 404 response. -/
theorem C5_notok_failure_frame_witness :
    (tick {} probeAdapter (.exn "ConnectionError" "boom") 0 "t"
        (initState .absent)).state.error_count = 1
    ∧ (tick {} probeAdapter (.exn "ConnectionError" "boom") 0 "t"
        (initState .absent)).state.last_error = some "ConnectionError: boom"
    ∧ (tick {} probeAdapter (.exn "ConnectionError" "boom") 0 "t"
        (initState .absent)).executed = []
    ∧ (tick {} probeAdapter (.response 404 "Not Found" {}) 0 "t"
        (initState .absent)).executed = [] := by
  have h := C5_notok_failure_frame {} probeAdapter
    (.exn "ConnectionError" "boom") 0 "t" (initState .absent) rfl
  have h4 := C5_notok_failure_frame {} probeAdapter
    (.response 404 "Not Found" {}) 0 "t" (initState .absent) (by decide)
  refine ⟨by simpa [initState] using h.2.2.2.2.1, ?_,
    h.2.2.2.2.2.2.2, h4.2.2.2.2.2.2.2⟩
  simpa [failureMsg] using h.2.2.2.2.2.1

/-- A `filterMap` drops at least one element when some element maps to
`none`. -/
theorem length_filterMap_lt {α β : Type} (f : α → Option β) (l : List α)
    (h : ∃ x ∈ l, f x = none) : (l.filterMap f).length < l.length := by
  induction l with
  | nil => simp at h
  | cons a t ih =>
    rcases h with ⟨x, hx, hfx⟩
    rcases List.mem_cons.mp hx with rfl | hxt
    · rw [List.filterMap_cons_none hfx]
      exact Nat.lt_succ_of_le (List.length_filterMap_le f t)
    · cases hfa : f a with
      | none =>
        rw [List.filterMap_cons_none hfa]
        exact Nat.lt_succ_of_lt (ih ⟨x, hxt, hfx⟩)
      | some b =>
        rw [List.filterMap_cons_some hfa]
        simpa using Nat.succ_lt_succ (ih ⟨x, hxt, hfx⟩)

/-- C4: in a successful cycle whose order batch contains at least one
execution the adapter rejects (`success: false`), the transactions appended
to the store are exactly the successful subset — each built from the
broker's actual `fill_price` / `fill_shares` / `commission`, keyed by the
originating order — every order of the batch is still dispatched (a
rejection aborts neither the batch nor the cycle), and the cycle's result is
`success: true` with `orders_filled < orders_received`. -/
theorem C4_partial_batch (cfg : Config) (a : Adapter) (status : Nat)
    (detail : String) (resp : TickResponse) (now : Nat) (ts : String)
    (s : ExecState) (hok : responseOk status = true)
    (h : ∃ o ∈ resp.orders, ∃ e, a.execute_order o = .failed e) :
    getPending (tick cfg a (.response status detail resp) now ts s).state.store
      = newTransactions a resp.orders now
    ∧ (∀ o ∈ resp.orders, ∀ fp fs c, a.execute_order o = .filled fp fs c →
        ({ order_id := o.order_id, symbol := o.symbol, action := o.action,
           volume := fs, price := fp, commission := c, time := now } : Tx)
          ∈ getPending (tick cfg a (.response status detail resp) now ts s).state.store)
    ∧ (∀ tx ∈ getPending (tick cfg a (.response status detail resp) now ts s).state.store,
        ∃ o ∈ resp.orders,
          a.execute_order o = .filled tx.price tx.volume tx.commission
          ∧ tx.order_id = o.order_id ∧ tx.symbol = o.symbol
          ∧ tx.action = o.action ∧ tx.time = now)
    ∧ (tick cfg a (.response status detail resp) now ts s).executed = resp.orders
    ∧ (tick cfg a (.response status detail resp) now ts s).result
        = .ok (s.tick_count + 1) resp.orders.length
            (newTransactions a resp.orders now).length
    ∧ (newTransactions a resp.orders now).length < resp.orders.length := by
  have ht := tick_ok cfg a status detail resp now ts s hok
  have hg : getPending
      (tick cfg a (.response status detail resp) now ts s).state.store
      = newTransactions a resp.orders now := by
    rw [ht]
    exact getPending_add_cleared _
  refine ⟨hg, ?_, ?_, by rw [ht], by rw [ht], ?_⟩
  · intro o ho fp fs c hfo
    rw [hg]
    exact List.mem_filterMap.mpr ⟨o, ho, by simp [txOfOrder, hfo]⟩
  · intro tx htx
    rw [hg] at htx
    obtain ⟨o, ho, hfo⟩ := List.mem_filterMap.mp htx
    cases hres : a.execute_order o with
    | failed e => simp [txOfOrder, hres] at hfo
    | filled fp fs c =>
      refine ⟨o, ho, ?_⟩
      simp only [txOfOrder, hres, Option.some.injEq] at hfo
      subst hfo
      exact ⟨hres, rfl, rfl, rfl, rfl⟩
  · rcases h with ⟨o, ho, e, hfe⟩
    exact length_filterMap_lt _ _ ⟨o, ho, by simp [txOfOrder, hfe]⟩

/-- The adapter used to witness C4: buys fill at a broker price different
from the order's reference price, sells are rejected. -/
def partialAdapter : Adapter :=
  { fetch_quote := fun _ _ => none,
    execute_buy := fun _ sh _ => .filled 101 sh 1,
    execute_sell := fun _ _ _ => .failed "Insufficient funds" }

/-- The two-order batch used to witness C4. -/
def partialResp : TickResponse :=
  { orders :=
      [{ order_id := "a", action := "buy", symbol := "AAPL", volume := 10,
         price := 100 },
       { order_id := "b", action := "sell", symbol := "TSLA", volume := 5,
         price := 200 }] }

/-- C4, witness: of two orders — a buy that fills at the broker's price 101
(the order's reference price was 100) and a sell the broker rejects — the
store ends with exactly the one transaction for the buy, carrying the
broker's values, and the result is `success` with 1 of 2 filled. -/
theorem C4_partial_batch_witness :
    getPending (tick {} partialAdapter (.response 200 "" partialResp) 3 "t"
        (initState .absent)).state.store
      = [{ order_id := "a", symbol := "AAPL", action := "buy", volume := 10,
           price := 101, commission := 1, time := 3 }]
    ∧ (tick {} partialAdapter (.response 200 "" partialResp) 3 "t"
        (initState .absent)).result = .ok 1 2 1 := by
  have h := C4_partial_batch {} partialAdapter 200 "" partialResp 3 "t"
    (initState .absent) (by decide)
    ⟨{ order_id := "b", action := "sell", symbol := "TSLA", volume := 5,
       price := 200 },
     by simp [partialResp], "Insufficient funds", by decide⟩
  constructor
  · rw [h.1]
    decide
  · rw [h.2.2.2.2.1]
    decide

/-! ## Quote-map lemmas for C8 -/

/-- An entry the quote loop keeps is keyed by the symbol it was built
from. -/
theorem quoteEntry_fst (a : Adapter) (eod : List (String × ℚ)) (now : Nat)
    (sym : String) (p : String × WireQuote)
    (h : quoteEntry a eod now sym = some p) : p.1 = sym := by
  cases hq : a.fetch_quote sym (lookupAssoc eod sym) with
  | none => simp [quoteEntry, hq] at h
  | some q =>
    by_cases he : q.isEmpty
    · simp [quoteEntry, hq, he] at h
    · simp [quoteEntry, hq, he] at h
      rw [← h]

/-- The outbound payload of a tick carries the price map built from the
tracked symbols, whatever the remote outcome. -/
theorem tick_sentPrices (cfg : Config) (a : Adapter)
    (outcome : RemoteOutcome) (now : Nat) (ts : String) (s : ExecState) :
    (tick cfg a outcome now ts s).sentPrices
      = buildPrices a s.symbols s.eod_prices now := by
  cases outcome with
  | timeout => rfl
  | exn en em => rfl
  | response st d resp =>
    by_cases hok : responseOk st = true
    · rw [tick_ok cfg a st d resp now ts s hok]
    · rw [Bool.not_eq_true] at hok
      rw [tick_notOk cfg a (.response st d resp) now ts s
        (by simpa [RemoteOutcome.okBranch] using hok)]

theorem mem_buildPrices (a : Adapter) (eod : List (String × ℚ)) (now : Nat)
    (syms : List String) (sym : String) (q : Quote) (hmem : sym ∈ syms)
    (hq : a.fetch_quote sym (lookupAssoc eod sym) = some q)
    (hne : q.isEmpty = false) :
    (sym, wireOf q now) ∈ buildPrices a syms eod now :=
  List.mem_filterMap.mpr ⟨sym, hmem, by simp [quoteEntry, hq, hne]⟩

theorem not_mem_buildPrices (a : Adapter) (eod : List (String × ℚ))
    (now : Nat) (syms : List String) (sym : String)
    (h : quoteEntry a eod now sym = none) :
    sym ∉ (buildPrices a syms eod now).map Prod.fst := by
  intro hmem
  obtain ⟨p, hp, hfst⟩ := List.mem_map.mp hmem
  obtain ⟨s', _, hq⟩ := List.mem_filterMap.mp hp
  have hps : p.1 = s' := quoteEntry_fst a eod now s' p hq
  rw [hps] at hfst
  subst hfst
  rw [h] at hq
  exact Option.noConfusion hq

/-- A falsy quote — `None` or the empty dict — produces no entry. -/
theorem quoteEntry_none (a : Adapter) (eod : List (String × ℚ)) (now : Nat)
    (sym : String)
    (h : a.fetch_quote sym (lookupAssoc eod sym) = none
      ∨ ∃ q, a.fetch_quote sym (lookupAssoc eod sym) = some q
          ∧ q.isEmpty = true) :
    quoteEntry a eod now sym = none := by
  rcases h with h | ⟨q, hq, he⟩
  · simp [quoteEntry, h]
  · simp [quoteEntry, hq, he]

/-! ## Claim theorems: quote fetching (C8) -/

/-- The adapter used against C8 as stated: symbol `"A"` has no quote,
symbol `"B"` returns the empty dict `{}` — a non-null `Quote` that Python's
`if quote:` nevertheless skips. -/
def emptyQuoteAdapter : Adapter :=
  { fetch_quote := fun sym _ => if sym = "A" then none else some {},
    execute_buy := fun _ sh _ => .filled 1 sh 0,
    execute_sell := fun _ sh _ => .filled 2 sh 0 }

/-- A session tracking the two symbols `"A"` and `"B"`. -/
def stateAB : ExecState := { initState .absent with symbols := ["A", "B"] }

/-- C8, counterexample to the claim as stated.  The claim says a symbol
whose `fetch_quote` returns null is omitted while the *other* symbols'
quotes are still included.  In the cycle below `"A"` returns null and is
omitted, but `"B"` — whose `fetch_quote` returns a quote, not null — is
omitted as well: the code keeps a quote only if the dict is truthy
(`if quote:`), and `"B"`'s quote is the falsy empty dict. -/
theorem C8_counterexample :
    emptyQuoteAdapter.fetch_quote "A" (lookupAssoc stateAB.eod_prices "A") = none
    ∧ emptyQuoteAdapter.fetch_quote "B" (lookupAssoc stateAB.eod_prices "B") ≠ none
    ∧ "B" ∈ stateAB.symbols
    ∧ "B" ∉ ((tick {} emptyQuoteAdapter (.response 200 "" {}) 0 "t"
        stateAB).sentPrices.map Prod.fst) := by
  refine ⟨rfl, by decide, by decide, ?_⟩
  rw [tick_sentPrices]
  exact not_mem_buildPrices _ _ _ _ _ (by decide)

/-- C8, amended: quotes are fetched only for symbols already tracked from a
prior successful tick response, so the first tick after startup sends an
empty outbound price map; within any tick, a tracked symbol whose
`fetch_quote` returns null — or returns a quote with no fields, which the
truthiness test `if quote:` equally skips — is omitted from the outbound
price map, while every tracked symbol returning a non-empty quote has its
quote included in the wire shape. -/
theorem C8_quote_policy (cfg : Config) (a : Adapter)
    (outcome : RemoteOutcome) (now : Nat) (ts : String) :
    (∀ fd, (tick cfg a outcome now ts (initState fd)).sentPrices = [])
    ∧ ∀ s : ExecState, ∀ sym ∈ s.symbols,
        (∀ q, a.fetch_quote sym (lookupAssoc s.eod_prices sym) = some q →
          q.isEmpty = false →
          (sym, wireOf q now) ∈ (tick cfg a outcome now ts s).sentPrices)
        ∧ ((a.fetch_quote sym (lookupAssoc s.eod_prices sym) = none
            ∨ ∃ q, a.fetch_quote sym (lookupAssoc s.eod_prices sym) = some q
                ∧ q.isEmpty = true) →
          sym ∉ ((tick cfg a outcome now ts s).sentPrices.map Prod.fst)) := by
  constructor
  · intro fd
    rw [tick_sentPrices]
    rfl
  · intro s sym hmem
    constructor
    · intro q hq hne
      rw [tick_sentPrices]
      exact mem_buildPrices a s.eod_prices now s.symbols sym q hmem hq hne
    · intro h
      rw [tick_sentPrices]
      exact not_mem_buildPrices a s.eod_prices now s.symbols sym
        (quoteEntry_none a s.eod_prices now sym h)

/-- The adapter witnessing the amended C8: `"A"` has no quote, `"B"` has a
real one. -/
def abQuoteAdapter : Adapter :=
  { fetch_quote := fun sym _ =>
      if sym = "A" then none
      else some { close := some 5, bid := some 4, ask := some 6 },
    execute_buy := fun _ sh _ => .filled 1 sh 0,
    execute_sell := fun _ sh _ => .filled 2 sh 0 }

/-- C8, witness for the amended theorem: the first tick on a fresh executor
sends no prices; tracking `"A"` and `"B"` with `"A"` quoteless, `"A"` is
omitted and `"B"`'s quote is included. -/
theorem C8_quote_policy_witness :
    (tick {} abQuoteAdapter (.response 200 "" {}) 7 "t" (initState .absent)).sentPrices = []
    ∧ ("B", wireOf { close := some 5, bid := some 4, ask := some 6 } 7)
        ∈ (tick {} abQuoteAdapter (.response 200 "" {}) 7 "t" stateAB).sentPrices
    ∧ "A" ∉ ((tick {} abQuoteAdapter (.response 200 "" {}) 7 "t"
        stateAB).sentPrices.map Prod.fst) := by
  have h := C8_quote_policy {} abQuoteAdapter (.response 200 "" {}) 7 "t"
  have hB := h.2 stateAB "B" (by decide)
  have hA := h.2 stateAB "A" (by decide)
  exact ⟨h.1 .absent,
    hB.1 { close := some 5, bid := some 4, ask := some 6 } rfl (by decide),
    hA.2 (Or.inl rfl)⟩

/-! ## Log-buffer lemmas for C9 -/

/-- Dict assignment then lookup: the assigned key reads the new value,
every other key is untouched. -/
theorem lookupAssoc_setAssoc {α : Type} (m : List (String × α))
    (k k' : String) (v : α) :
    lookupAssoc (setAssoc m k v) k'
      = if k = k' then some v else lookupAssoc m k' := by
  induction m with
  | nil => simp [setAssoc, lookupAssoc]
  | cons p rest ih =>
    by_cases hpk : p.1 = k
    · by_cases hkk : k = k'
      · simp [setAssoc, hpk, lookupAssoc, hkk]
      · have hpk' : p.1 ≠ k' := by rw [hpk]; exact hkk
        simp [setAssoc, hpk, lookupAssoc, hkk, hpk']
    · by_cases hpk' : p.1 = k'
      · have hkk : k ≠ k' := fun h => hpk (h ▸ hpk')
        simp [setAssoc, hpk, lookupAssoc, hpk', hkk, Ne.symm hkk]
      · simp [setAssoc, hpk, lookupAssoc, hpk', ih]

theorem bufferOf_setAssoc (m : List (String × List String)) (k k' : String)
    (v : List String) :
    bufferOf (setAssoc m k v) k' = if k = k' then v else bufferOf m k' := by
  rw [bufferOf, lookupAssoc_setAssoc]
  split_ifs <;> rfl

/-- The truncation `logs[-200:]` caps the buffer at 200 entries. -/
theorem truncLast200_length (l : List String) :
    (truncLast200 l).length ≤ 200 := by
  rw [truncLast200]
  split_ifs with h
  · rw [List.length_drop]
    omega
  · omega

/-- Folding the log loop over any incoming map keeps every buffer at 200
entries or fewer. -/
theorem processLogs_bound (ts : String)
    (incoming : List (String × List String)) :
    ∀ logs : List (String × List String),
      (∀ sym, (bufferOf logs sym).length ≤ 200) →
      ∀ sym, (bufferOf (processLogs ts incoming logs) sym).length ≤ 200 := by
  induction incoming with
  | nil => intro logs h sym; exact h sym
  | cons p rest ih =>
    intro logs h sym
    have hstep : processLogs ts (p :: rest) logs
        = processLogs ts rest
            (setAssoc logs p.1
              (truncLast200
                (bufferOf logs p.1
                  ++ p.2.map (fun line => ts ++ " " ++ line)))) := rfl
    rw [hstep]
    refine ih _ (fun sym' => ?_) sym
    rw [bufferOf_setAssoc]
    split_ifs with hk
    · exact truncLast200_length _
    · exact h sym'

/-! ## Claim theorems: strategy log buffers (C9) -/

/-- C9: every tick preserves the invariant that each symbol's strategy log
buffer holds at most 200 entries, however many lines arrive; and for an
ok cycle delivering lines for one symbol, the new buffer is exactly the old
buffer extended with the arrival-timestamped lines, truncated to the most
recent 200. -/
theorem C9_log_buffer_cap (cfg : Config) (a : Adapter)
    (outcome : RemoteOutcome) (now : Nat) (ts : String) (s : ExecState)
    (h : ∀ sym, (bufferOf s.strategy_logs sym).length ≤ 200) :
    (∀ sym, (bufferOf (tick cfg a outcome now ts s).state.strategy_logs
        sym).length ≤ 200)
    ∧ ∀ status detail resp sym lines,
        outcome = .response status detail resp → responseOk status = true →
        resp.logs = [(sym, lines)] →
        bufferOf (tick cfg a outcome now ts s).state.strategy_logs sym
          = truncLast200 (bufferOf s.strategy_logs sym
              ++ lines.map (fun line => ts ++ " " ++ line)) := by
  constructor
  · by_cases hok : outcome.okBranch = true
    · cases outcome with
      | timeout => simp [RemoteOutcome.okBranch] at hok
      | exn en em => simp [RemoteOutcome.okBranch] at hok
      | response st d resp =>
        have hok' : responseOk st = true := by
          simpa [RemoteOutcome.okBranch] using hok
        rw [tick_ok cfg a st d resp now ts s hok']
        exact processLogs_bound ts resp.logs s.strategy_logs h
    · rw [Bool.not_eq_true] at hok
      rw [tick_notOk cfg a outcome now ts s hok]
      exact h
  · rintro status detail resp sym lines rfl hok hone
    have hlogs : (tick cfg a (.response status detail resp) now ts
        s).state.strategy_logs = processLogs ts resp.logs s.strategy_logs := by
      rw [tick_ok cfg a status detail resp now ts s hok]
    rw [hlogs, hone]
    have hstep : processLogs ts [(sym, lines)] s.strategy_logs
        = setAssoc s.strategy_logs sym
            (truncLast200 (bufferOf s.strategy_logs sym
              ++ lines.map (fun line => ts ++ " " ++ line))) := rfl
    rw [hstep, bufferOf_setAssoc]
    simp

/-- The response used to witness C9: 250 lines arrive at once for symbol
`"A"`. -/
def respManyLogs : TickResponse :=
  { logs := [("A", List.replicate 250 "hello")] }

/-- C9, witness: on a fresh executor a burst of 250 lines for `"A"` leaves
its buffer at the 200-entry cap, and the buffer is the timestamped arrival
list truncated to the last 200. -/
theorem C9_log_buffer_cap_witness :
    (bufferOf (tick {} probeAdapter (.response 200 "" respManyLogs) 0 "ts"
        (initState .absent)).state.strategy_logs "A").length ≤ 200
    ∧ bufferOf (tick {} probeAdapter (.response 200 "" respManyLogs) 0 "ts"
        (initState .absent)).state.strategy_logs "A"
      = truncLast200 (bufferOf (initState .absent).strategy_logs "A"
          ++ (List.replicate 250 "hello").map (fun line => "ts" ++ " " ++ line)) := by
  have h := C9_log_buffer_cap {} probeAdapter (.response 200 "" respManyLogs)
    0 "ts" (initState .absent)
    (fun sym => by simp [initState, bufferOf, lookupAssoc])
  exact ⟨h.1 "A",
    h.2 200 "" respManyLogs "A" (List.replicate 250 "hello") rfl (by decide) rfl⟩

end TradeTracer
